import Mathlib

/-!
Shallow embedding of the goloop peer-to-peer transport core
(`network/transport.go`) and the state-sync client/manager
(`service/sync/client.go`, `service/sync/manager.go`),
with theorems settling the specification claims about them.
-/

namespace Goloop

/-- Peer identifiers (`module.PeerID`), modelled as naturals. -/
abbrev PeerID := Nat

/-- Packet content hashes (`hashOfPacket`), modelled as naturals. -/
abbrev Hash := Nat

/-- Raw byte strings, modelled as lists of naturals. -/
abbrev Bytes := List Nat

/-! ## Handler pipeline (`NewTransport`, `newPeerDispatcher`,
`PeerDispatcher.registPeerHandler`, `PeerDispatcher.dispatchPeer`) -/

/-- The three per-connection peer handlers of the transport. -/
inductive Handler where
  | peerDispatcher
  | channelNegotiator
  | authenticator
  deriving DecidableEq, Repr

/-- State of the `PeerDispatcher`'s handler registry: the `peerHandlers`
doubly-linked list (front to back) and each handler's `next` pointer as
set by `PeerHandler.setNext`. -/
structure DispatcherState where
  handlers : List Handler
  nextOf : Handler → Option Handler

/-- `PeerDispatcher.registPeerHandler`: push the handler at the back of
`peerHandlers`; if the new element has a previous element, set the new
handler's `next` to that previous element's handler. -/
def registPeerHandler (st : DispatcherState) (ph : Handler) : DispatcherState :=
  { handlers := st.handlers ++ [ph]
    nextOf :=
      match st.handlers.getLast? with
      | none => st.nextOf
      | some prev => fun h => if h = ph then some prev else st.nextOf h }

/-- `newPeerDispatcher(id, peerHandlers...)`: registers the dispatcher
itself first, then each handler of the variadic argument in order. -/
def newPeerDispatcher (phs : List Handler) : DispatcherState :=
  phs.foldl registPeerHandler
    (registPeerHandler ⟨[], fun _ => none⟩ Handler.peerDispatcher)

/-- `NewTransport` builds the dispatcher with
`newPeerDispatcher(id, cn, a)` where `cn` is the channel negotiator and
`a` the authenticator, in that argument order. -/
def transportDispatcher : DispatcherState :=
  newPeerDispatcher [Handler.channelNegotiator, Handler.authenticator]

/-- The chain of handlers reached from `h` by following `next` pointers
(fuel-bounded to guarantee termination). -/
def chainFrom (nextOf : Handler → Option Handler) : Nat → Handler → List Handler
  | 0, h => [h]
  | n + 1, h =>
    h :: (match nextOf h with
          | none => []
          | some h2 => chainFrom nextOf n h2)

/-- The order in which handlers process a freshly accepted or dialed
peer: `PeerDispatcher.dispatchPeer` hands the peer to the handler at the
back of `peerHandlers`, and `peerHandler.nextOnPeer` forwards it along
the `next` pointers. -/
def dispatchOrder (st : DispatcherState) : List Handler :=
  match st.handlers.getLast? with
  | none => []
  | some back => chainFrom st.nextOf st.handlers.length back

/-! ## Peer close bookkeeping (`Peer._close`, `Peer.Close`,
`Peer.CloseByError`, `Peer.IsClosed`) -/

/-- The close-relevant state of a `Peer`: the `closed` atomic flag, the
number of times `conn.Close` was invoked, the number of times the
`close` channel was closed, the number of close-callback invocations,
and the accumulated close reasons and close errors. -/
structure PeerCloseState where
  closed : Bool
  connCloseCount : Nat
  chCloseCount : Nat
  closeCbCount : Nat
  closeReason : List String
  closeErr : List String
  deriving DecidableEq, Repr

/-- A freshly constructed `Peer` (`newPeer`): not closed, nothing
accumulated. -/
def initPeerClose : PeerCloseState :=
  { closed := false, connCloseCount := 0, chCloseCount := 0
    closeCbCount := 0, closeReason := [], closeErr := [] }

/-- `Peer._close`: compare-and-swap `closed` from 0 to 1; only the
winner closes the connection, closes the `close` channel and invokes
the close callback. -/
def closeInternal (s : PeerCloseState) : PeerCloseState :=
  if s.closed = false then
    { s with closed := true
             connCloseCount := s.connCloseCount + 1
             chCloseCount := s.chCloseCount + 1
             closeCbCount := s.closeCbCount + 1 }
  else s

/-- `Peer.Close(reason)`: record the reason, then `_close`. -/
def peerClose (r : String) (s : PeerCloseState) : PeerCloseState :=
  closeInternal { s with closeReason := s.closeReason ++ [r] }

/-- `Peer.CloseByError(err)`: record the error, then `_close`. -/
def peerCloseByError (e : String) (s : PeerCloseState) : PeerCloseState :=
  closeInternal { s with closeErr := s.closeErr ++ [e] }

/-- One external close request on a peer. -/
inductive CloseOp where
  | close (reason : String)
  | closeByError (err : String)
  deriving DecidableEq, Repr

/-- Apply one close request. -/
def applyCloseOp (s : PeerCloseState) : CloseOp → PeerCloseState
  | CloseOp.close r => peerClose r s
  | CloseOp.closeByError e => peerCloseByError e s

/-- Run a sequence of close requests in order. -/
def runCloseOps (s : PeerCloseState) (ops : List CloseOp) : PeerCloseState :=
  ops.foldl applyCloseOp s

/-- `Peer.IsClosed`: atomic load of the `closed` flag. -/
def isClosed (s : PeerCloseState) : Bool :=
  s.closed

/-! ## Listener (`Listener.Close`) -/

/-- State of a `Listener`: the `ln net.Listener` field, `none` when nil. -/
structure ListenerState where
  ln : Option Nat
  deriving DecidableEq, Repr

/-- Outcome of `Listener.Close`: either the early `ErrAlreadyClosed`
return, or falling through to the close path (`l.ln.Close()` etc.). -/
inductive ListenerCloseResult where
  | errAlreadyClosed
  | proceedClosePath
  deriving DecidableEq, Repr

/-- `Listener.Close`: under the mutex, if `l.ln != nil` return
`ErrAlreadyClosed`; otherwise proceed to the close path. -/
def listenerClose (l : ListenerState) : ListenerCloseResult :=
  match l.ln with
  | some _ => ListenerCloseResult.errAlreadyClosed
  | none => ListenerCloseResult.proceedClosePath

/-! ## Packets and the peer send path (`Packet`, `Peer.isDuplicatedToSend`,
`Peer.send`, `Peer.sendPacket`) -/

/-- The send-relevant fields of a `Packet`: source peer id, the neighbor
that delivered it (`sender`, nil before a packet is received), its
content hash, the dedup-bypass flag and the queue priority.
The hash is kept as an always-present field: `pkt.updateHash(false)`
computes `hashOfPacket` from the content when it is not yet set, so at
the `pool.Contains` check the field always holds the content hash. -/
structure Packet where
  src : PeerID
  sender : Option PeerID
  hashOfPacket : Hash
  forceSend : Bool
  priority : Nat
  deriving DecidableEq, Repr

/-- Modelled from the spec: the repository's `PriorityQueue`
implementation (`NewPriorityQueue(DefaultPeerSendQueueSize,
DefaultSendQueueMaxPriority)`) is not under src/. Per the spec it is a
bounded multi-level FIFO: one FIFO per priority level, at most
`sizePerLevel` entries per level. -/
structure PriorityQueue where
  sizePerLevel : Nat
  levels : List (List Packet)
  deriving DecidableEq, Repr

/-- Modelled from the spec: `PriorityQueue.Push(ctx, prio)` appends to
the FIFO at the given priority level and returns false when that level
is full (and when the level index is out of range). -/
def pqPush (q : PriorityQueue) (pkt : Packet) (prio : Nat) : Bool × PriorityQueue :=
  match q.levels[prio]? with
  | none => (false, q)
  | some lvl =>
    if q.sizePerLevel ≤ lvl.length then (false, q)
    else (true, { q with levels := q.levels.set prio (lvl ++ [pkt]) })

/-- The send-relevant state of a `Peer`: its id, the `closed` flag, the
duplicate-hash `TimestampPool` (as the list of currently stored hashes)
and the priority send queue. -/
structure SendPeer where
  id : PeerID
  closed : Bool
  pool : List Hash
  q : PriorityQueue
  deriving DecidableEq, Repr

/-- `Peer.isDuplicatedToSend`: true if the packet's `src` equals this
peer's id; otherwise, when `forceSend` is unset, true if the packet's
`sender` is non-nil and equals this peer's id, or if the peer's
duplicate pool contains the packet's hash. -/
def isDuplicatedToSend (p : SendPeer) (pkt : Packet) : Bool :=
  if p.id = pkt.src then
    true
  else if pkt.forceSend = false then
    if (match pkt.sender with
        | some s => decide (p.id = s)
        | none => false) then
      true
    else if p.pool.contains pkt.hashOfPacket then
      true
    else
      false
  else
    false

/-- Result of `Peer.send` / `Peer.sendPacket`. -/
inductive SendResult where
  | errNotAvailable
  | errDuplicatedPacket
  | errQueueOverflow
  | ok
  deriving DecidableEq, Repr

/-- The `Counter` carried in the send context. -/
structure Counter where
  peer : Nat
  duplicate : Nat
  overflow : Nat
  enqueue : Nat
  deriving DecidableEq, Repr

/-- `Peer.send(ctx)`: `ErrNotAvailable` when the peer is nil or closed;
`ErrDuplicatedPacket` when `isDuplicatedToSend` holds; `ErrQueueOverflow`
when the queue push fails; otherwise the packet is enqueued and the
result is nil. Returns the result together with the updated peer state
and counter. -/
def peerSend (p : Option SendPeer) (pkt : Packet) (c : Counter) :
    SendResult × Option SendPeer × Counter :=
  match p with
  | none => (SendResult.errNotAvailable, none, c)
  | some pr =>
    if pr.closed then
      (SendResult.errNotAvailable, some pr, c)
    else
      let c1 := { c with peer := c.peer + 1 }
      if isDuplicatedToSend pr pkt then
        (SendResult.errDuplicatedPacket, some pr,
          { c1 with duplicate := c1.duplicate + 1 })
      else
        match pqPush pr.q pkt pkt.priority with
        | (false, q2) =>
          (SendResult.errQueueOverflow, some { pr with q := q2 },
            { c1 with overflow := c1.overflow + 1 })
        | (true, q2) =>
          (SendResult.ok, some { pr with q := q2 },
            { c1 with enqueue := c1.enqueue + 1 })

/-- `Peer.sendPacket(pkt)`: build a fresh context with a zeroed counter
and call `Peer.send`. -/
def peerSendPacket (p : Option SendPeer) (pkt : Packet) :
    SendResult × Option SendPeer × Counter :=
  peerSend p pkt { peer := 0, duplicate := 0, overflow := 0, enqueue := 0 }

/-! ## Peer receive loop (`Peer.receiveRoutine`, `Peer.isTemporaryError`) -/

/-- Errors surfaced by `PacketReader.ReadPacket`, at the granularity
`isTemporaryError` and `isCloseError` distinguish. -/
inductive NetError where
  | opError (temporary : Bool)
  | eofError
  | unexpectedEOFError
  | otherError
  deriving DecidableEq, Repr

/-- `Peer.isTemporaryError`: a `*net.OpError` is temporary exactly when
`oe.Temporary()` reports so; every other error is not temporary. -/
def isTemporaryError : NetError → Bool
  | NetError.opError t => t
  | _ => false

/-- Observable events of the receive loop: an error-callback invocation,
or a packet-callback invocation recording the delivered packet and the
content of the duplicate pool at the moment of the call. -/
inductive ReceiveEvent where
  | errorCb (e : NetError)
  | packetCb (pkt : Packet) (poolAtCall : List Hash)
  deriving DecidableEq, Repr

/-- `Peer.receiveRoutine`, driven by the finite trace of outcomes of
successive `reader.ReadPacket` calls. A non-temporary read error closes
the peer via `CloseByError` and exits the loop; a temporary one invokes
the error callback and continues. A successfully read packet gets its
`sender` stamped with the peer's id and its hash inserted into the
duplicate pool before the packet callback runs. Returns the events in
order, the error the loop closed with (if any), and the final pool. -/
def receiveRoutine (pid : PeerID) (pool : List Hash) :
    List (Except NetError Packet) → List ReceiveEvent × Option NetError × List Hash
  | [] => ([], none, pool)
  | Except.error e :: rest =>
    if isTemporaryError e then
      let r := receiveRoutine pid pool rest
      (ReceiveEvent.errorCb e :: r.1, r.2)
    else
      ([], some e, pool)
  | Except.ok pkt :: rest =>
    let pkt2 := { pkt with sender := some pid }
    let pool2 := pkt2.hashOfPacket :: pool
    let r := receiveRoutine pid pool2 rest
    (ReceiveEvent.packetCb pkt2 pool2 :: r.1, r.2)

/-! ## Peer dispatch to overlays (`PeerDispatcher.onPeer`,
`peerHandler.onError`) -/

/-- A per-channel `PeerToPeer` overlay, identified by its channel. -/
structure P2POverlay where
  channel : String
  deriving DecidableEq, Repr

/-- The dispatch-relevant state of the `PeerDispatcher`: its `p2pMap`
from channel names to registered overlays, as an association list. -/
structure PDState where
  p2pMap : List (String × P2POverlay)
  deriving DecidableEq, Repr

/-- Observable outcome of `PeerDispatcher.onPeer` on a peer: which
overlay (if any) each callback was rewired to, which overlay's `onPeer`
was invoked, the error message passed to `onError` (if that path was
taken, which logs it and calls `p.Close()`), and the close reasons that
call records (none: `Close` is invoked without a reason argument). -/
structure DispatchResult where
  packetCbOwner : Option P2POverlay
  errorCbOwner : Option P2POverlay
  closeCbOwner : Option P2POverlay
  overlayOnPeer : Option P2POverlay
  closeErrMsg : Option String
  closeReasonsAdded : List String
  deriving DecidableEq, Repr

/-- `PeerDispatcher.onPeer`: look up the overlay registered for the
peer's channel. If present, rewire the peer's packet/error/close
callbacks to the overlay and call `overlay.onPeer(p)`. Otherwise call
`pd.onError` with the error `not exists PeerToPeer[channel]`, which
(via the embedded `peerHandler.onError`) logs and closes the peer. -/
def pdOnPeer (st : PDState) (channel : String) : DispatchResult :=
  match st.p2pMap.lookup channel with
  | some p2p =>
    { packetCbOwner := some p2p, errorCbOwner := some p2p
      closeCbOwner := some p2p, overlayOnPeer := some p2p
      closeErrMsg := none, closeReasonsAdded := [] }
  | none =>
    { packetCbOwner := none, errorCbOwner := none
      closeCbOwner := none, overlayOnPeer := none
      closeErrMsg := some ("not exists PeerToPeer[" ++ channel ++ "]")
      closeReasonsAdded := [] }

/-! ## State-sync client (`client.hasNode`, `client.requestNodeData`)
and manager (`Manager.OnReceive`) -/

/-- The four sub-protocols of the state-sync reactor. -/
inductive SyncProto where
  | protoHasNode
  | protoResult
  | protoRequestNodeData
  | protoNodeData
  deriving DecidableEq, Repr

/-- `configExpiredTime`: request expiry, in milliseconds. -/
def configExpiredTime : Nat := 300

/-- `receiveMsg` of the sync message-type enumeration. -/
def receiveMsg : Nat := 0

/-- `receiveTimeExpired` of the sync message-type enumeration. -/
def receiveTimeExpired : Nat := 1

/-- A timer armed by `time.AfterFunc`: its duration in milliseconds and
the `expired(msgType, pi, nil, p)` event its expiry injects. -/
structure SyncTimer where
  durationMs : Nat
  msgType : Nat
  pi : SyncProto
  deriving DecidableEq, Repr

/-- A state-sync `peer`: its id, the per-peer request counter and the
currently armed timer (if any). -/
structure SPeer where
  id : PeerID
  reqID : Nat
  timer : Option SyncTimer
  deriving DecidableEq, Repr

/-- The `hasNode` request message, fields in composite-literal order. -/
structure HasNodeMsg where
  reqID : Nat
  stateHash : Bytes
  validatorListHash : Bytes
  patchReceiptsHash : Bytes
  normalReceiptsHash : Bytes
  deriving DecidableEq, Repr

/-- The `requestNodeData` request message, fields in
composite-literal order. -/
structure RequestNodeDataMsg where
  reqID : Nat
  syncType : Nat
  hashes : List Bytes
  deriving DecidableEq, Repr

/-- `client.hasNode`: build the message with `reqID = p.reqID + 1` and
unicast it (`uni` is the outcome of `ph.Unicast`, `some e` on failure).
On failure return the error leaving the peer untouched; on success
store the new `reqID` and arm a `configExpiredTime`-millisecond timer
that injects `expired(receiveTimeExpired, protoResult, nil, p)`.
Returns the unicast error, the updated peer and the sent message. -/
def clientHasNode (p : SPeer) (ws vh pr nr : Bytes) (uni : Option String) :
    Option String × SPeer × HasNodeMsg :=
  let reqID := p.reqID + 1
  let msg : HasNodeMsg :=
    { reqID := reqID, stateHash := ws, validatorListHash := vh
      patchReceiptsHash := pr, normalReceiptsHash := nr }
  match uni with
  | some e => (some e, p, msg)
  | none =>
    (none,
      { p with
          reqID := reqID
          timer := some
            { durationMs := configExpiredTime
              msgType := receiveTimeExpired
              pi := SyncProto.protoResult } },
      msg)

/-- `client.requestNodeData`: same protocol as `clientHasNode` with the
`requestNodeData` message; the armed timer injects
`expired(receiveTimeExpired, protoNodeData, nil, p)`. -/
def clientRequestNodeData (p : SPeer) (hashes : List Bytes) (t : Nat)
    (uni : Option String) : Option String × SPeer × RequestNodeDataMsg :=
  let reqID := p.reqID + 1
  let msg : RequestNodeDataMsg := { reqID := reqID, syncType := t, hashes := hashes }
  match uni with
  | some e => (some e, p, msg)
  | none =>
    (none,
      { p with
          reqID := reqID
          timer := some
            { durationMs := configExpiredTime
              msgType := receiveTimeExpired
              pi := SyncProto.protoNodeData } },
      msg)

/-- The receive-relevant state of the sync `Manager`: the ids present in
its peer pool and the `syncing` flag. -/
structure MState where
  pool : List PeerID
  syncing : Bool
  deriving DecidableEq, Repr

/-- The downstream call `Manager.OnReceive` makes, if any. -/
inductive MEffect where
  | serverOnReceive (pi : SyncProto) (b : Bytes) (id : PeerID)
  | syncerOnReceive (pi : SyncProto) (b : Bytes) (id : PeerID)
  deriving DecidableEq, Repr

/-- `Manager.OnReceive(pi, b, id)`: drop silently when the sender is
not in the peer pool; forward `protoHasNode`/`protoRequestNodeData` to
the server; forward `protoResult`/`protoNodeData` to the syncer only
while `syncing`; always return `(false, nil)`. -/
def managerOnReceive (m : MState) (pi : SyncProto) (b : Bytes) (id : PeerID) :
    (Bool × Option String) × Option MEffect :=
  if m.pool.contains id then
    match pi with
    | SyncProto.protoHasNode =>
      ((false, none), some (MEffect.serverOnReceive pi b id))
    | SyncProto.protoRequestNodeData =>
      ((false, none), some (MEffect.serverOnReceive pi b id))
    | SyncProto.protoResult =>
      if m.syncing then ((false, none), some (MEffect.syncerOnReceive pi b id))
      else ((false, none), none)
    | SyncProto.protoNodeData =>
      if m.syncing then ((false, none), some (MEffect.syncerOnReceive pi b id))
      else ((false, none), none)
  else
    ((false, none), none)

/-! ## NetAddress validation (`NetAddress.Validate`), together with
embeddings of the Go standard-library functions it calls:
`net.SplitHostPort` and `strconv.ParseInt(port, 10, 64)` -/

/-- Index of the first occurrence of a character in a string
(Go `bytealg.IndexByteString`). -/
def byteIndex (s : List Char) (c : Char) : Option Nat :=
  match s with
  | [] => none
  | a :: rest => if a = c then some 0 else (byteIndex rest c).map (· + 1)

/-- Index of the last occurrence of a character in a string
(Go `net.last`). -/
def lastIndex (s : List Char) (c : Char) : Option Nat :=
  match byteIndex s.reverse c with
  | none => none
  | some i => some (s.length - 1 - i)

/-- The `net.AddrError` messages `SplitHostPort` can produce. -/
inductive AddrErr where
  | missingPort
  | tooManyColons
  | missingRBracket
  | unexpectedLBracket
  | unexpectedRBracket
  deriving DecidableEq, Repr

/-- `net.SplitHostPort(hostPort)`: the port starts after the last colon;
a leading `[` opens a bracketed (IPv6) host terminated by `]` directly
before that colon; a bare host may not contain a colon; no brackets may
appear outside the host. -/
def splitHostPort (s : List Char) : Except AddrErr (List Char × List Char) :=
  match lastIndex s ':' with
  | none => Except.error AddrErr.missingPort
  | some i =>
    if s.head? = some '[' then
      match byteIndex s ']' with
      | none => Except.error AddrErr.missingRBracket
      | some e =>
        if e + 1 = s.length then
          Except.error AddrErr.missingPort
        else if e + 1 = i then
          if (byteIndex (s.drop 1) '[').isSome then
            Except.error AddrErr.unexpectedLBracket
          else if (byteIndex (s.drop (e + 1)) ']').isSome then
            Except.error AddrErr.unexpectedRBracket
          else
            Except.ok ((s.drop 1).take (e - 1), s.drop (i + 1))
        else if s.get? (e + 1) = some ':' then
          Except.error AddrErr.tooManyColons
        else
          Except.error AddrErr.missingPort
    else
      if (byteIndex (s.take i) ':').isSome then
        Except.error AddrErr.tooManyColons
      else if (byteIndex s '[').isSome then
        Except.error AddrErr.unexpectedLBracket
      else if (byteIndex s ']').isSome then
        Except.error AddrErr.unexpectedRBracket
      else
        Except.ok (s.take i, s.drop (i + 1))

/-- The two `strconv.NumError` kinds `ParseInt` can produce. -/
inductive NumErr where
  | syntaxErr
  | rangeErr
  deriving DecidableEq, Repr

/-- Digit-accumulation loop of `strconv.ParseUint` at base 10: syntax
error on a non-digit, range error as soon as the accumulated value
exceeds `maxVal`. -/
def parseUintLoop (maxVal : Nat) : List Char → Nat → Except NumErr Nat
  | [], n => Except.ok n
  | c :: rest, n =>
    if c.isDigit then
      let n1 := n * 10 + (c.toNat - 48)
      if maxVal < n1 then Except.error NumErr.rangeErr
      else parseUintLoop maxVal rest n1
    else Except.error NumErr.syntaxErr

/-- `strconv.ParseUint(s, 10, 64)`: empty input is a syntax error,
otherwise the digit loop with `maxVal = 2^64 - 1`. -/
def parseUint10 (s : List Char) : Except NumErr Nat :=
  match s with
  | [] => Except.error NumErr.syntaxErr
  | _ :: _ => parseUintLoop (2 ^ 64 - 1) s 0

/-- `strconv.ParseInt(s, 10, 64)`: strip one leading sign, parse the
remainder as unsigned, and range-check against the int64 cutoff
`2^63`. -/
def parseInt10 (s : List Char) : Except NumErr Int :=
  match s with
  | [] => Except.error NumErr.syntaxErr
  | c :: rest =>
    let neg : Bool := c = '-'
    let digits := if c = '+' ∨ c = '-' then rest else s
    match parseUint10 digits with
    | Except.error e => Except.error e
    | Except.ok un =>
      if neg = false ∧ 2 ^ 63 ≤ un then
        Except.error NumErr.rangeErr
      else if neg = true ∧ 2 ^ 63 < un then
        Except.error NumErr.rangeErr
      else
        Except.ok (if neg then -(un : Int) else (un : Int))

/-- The errors `NetAddress.Validate` can return. -/
inductive ValidateErr where
  | addrErr (e : AddrErr)
  | numErr (e : NumErr)
  | invalidPort (port : List Char)
  deriving DecidableEq, Repr

/-- `NetAddress.Validate`: split host and port with `net.SplitHostPort`,
parse the port with `strconv.ParseInt(port, 10, 64)`, and reject ports
outside `[1, 65535]`; `none` models the nil return. -/
def netAddressValidate (na : List Char) : Option ValidateErr :=
  match splitHostPort na with
  | Except.error e => some (ValidateErr.addrErr e)
  | Except.ok (_, port) =>
    match parseInt10 port with
    | Except.error e => some (ValidateErr.numErr e)
    | Except.ok i =>
      if i < 1 ∨ 65535 < i then some (ValidateErr.invalidPort port)
      else none

/-! ## Theorems -/

/-- Helper: once the `closed` flag is set, one further close request
leaves the flag and both once-only counters untouched. -/
theorem applyCloseOp_of_closed (s : PeerCloseState) (op : CloseOp)
    (h : s.closed = true) :
    (applyCloseOp s op).closed = true ∧
    (applyCloseOp s op).closeCbCount = s.closeCbCount ∧
    (applyCloseOp s op).chCloseCount = s.chCloseCount := by
  cases op <;>
    simp [applyCloseOp, peerClose, peerCloseByError, closeInternal, h]

/-- Helper: once the `closed` flag is set, any sequence of close
requests leaves the flag and both once-only counters untouched. -/
theorem runCloseOps_of_closed (ops : List CloseOp) :
    ∀ s : PeerCloseState, s.closed = true →
      (runCloseOps s ops).closed = true ∧
      (runCloseOps s ops).closeCbCount = s.closeCbCount ∧
      (runCloseOps s ops).chCloseCount = s.chCloseCount := by
  induction ops with
  | nil => intro s h; exact ⟨h, rfl, rfl⟩
  | cons op rest ih =>
    intro s h
    obtain ⟨h1, h2, h3⟩ := applyCloseOp_of_closed s op h
    obtain ⟨g1, g2, g3⟩ := ih (applyCloseOp s op) h1
    exact ⟨g1, by simp [runCloseOps] at g2 ⊢; omega,
      by simp [runCloseOps] at g3 ⊢; omega⟩

/-- Helper: the first close request on a fresh peer sets the flag and
performs the once-only actions exactly once. -/
theorem applyCloseOp_init (op : CloseOp) :
    (applyCloseOp initPeerClose op).closed = true ∧
    (applyCloseOp initPeerClose op).closeCbCount = 1 ∧
    (applyCloseOp initPeerClose op).chCloseCount = 1 := by
  cases op <;>
    simp [applyCloseOp, peerClose, peerCloseByError, closeInternal, initPeerClose]

/-- C2: for every peer, however many `Close(reason)` and
`CloseByError(err)` calls are made and in whatever order, the close
callback is invoked exactly once, the `close` channel is closed exactly
once, and `IsClosed()` is monotone: once true it stays true under any
further close request. -/
theorem claim_C2 (ops : List CloseOp) (h : ops ≠ []) :
    (runCloseOps initPeerClose ops).closeCbCount = 1 ∧
    (runCloseOps initPeerClose ops).chCloseCount = 1 ∧
    ∀ (s : PeerCloseState) (op : CloseOp),
      isClosed s = true → isClosed (applyCloseOp s op) = true := by
  match ops with
  | [] => exact absurd rfl h
  | op :: rest =>
    obtain ⟨h1, h2, h3⟩ := applyCloseOp_init op
    obtain ⟨g1, g2, g3⟩ := runCloseOps_of_closed rest (applyCloseOp initPeerClose op) h1
    refine ⟨?_, ?_, ?_⟩
    · simpa [runCloseOps, h2] using g2
    · simpa [runCloseOps, h3] using g3
    · intro s o hc
      exact (applyCloseOp_of_closed s o hc).1

/-- C2 witness: three racing close requests on a fresh peer yield
exactly one callback invocation and one channel close. -/
theorem claim_C2_witness :
    (runCloseOps initPeerClose
      [CloseOp.close "query timeout", CloseOp.closeByError "EOF",
        CloseOp.close "again"]).closeCbCount = 1 ∧
    (runCloseOps initPeerClose
      [CloseOp.close "query timeout", CloseOp.closeByError "EOF",
        CloseOp.close "again"]).chCloseCount = 1 := by
  have h := claim_C2
    [CloseOp.close "query timeout", CloseOp.closeByError "EOF",
      CloseOp.close "again"] (List.cons_ne_nil _ _)
  exact ⟨h.1, h.2.1⟩

/-- C1 counterexample: the handler pipeline built by `NewTransport` is
`Authenticator → ChannelNegotiator → PeerDispatcher`, not
`ChannelNegotiator → Authenticator → PeerDispatcher` as claimed:
`dispatchPeer` starts at the back of `peerHandlers`, which is the
authenticator, and `registPeerHandler` points each handler's `next` at
the previously registered one. -/
theorem claim_C1_counterexample :
    dispatchOrder transportDispatcher =
      [Handler.authenticator, Handler.channelNegotiator, Handler.peerDispatcher] ∧
    dispatchOrder transportDispatcher ≠
      [Handler.channelNegotiator, Handler.authenticator, Handler.peerDispatcher] ∧
    transportDispatcher.nextOf Handler.channelNegotiator ≠ some Handler.authenticator := by
  refine ⟨by decide, by decide, by decide⟩

/-- C1 (amended): `dispatchPeer` hands every accepted or dialed peer to
the Authenticator, whose `next` handler is the ChannelNegotiator, whose
`next` handler is the PeerDispatcher. -/
theorem claim_C1 :
    dispatchOrder transportDispatcher =
      [Handler.authenticator, Handler.channelNegotiator, Handler.peerDispatcher] ∧
    transportDispatcher.nextOf Handler.authenticator = some Handler.channelNegotiator ∧
    transportDispatcher.nextOf Handler.channelNegotiator = some Handler.peerDispatcher ∧
    transportDispatcher.nextOf Handler.peerDispatcher = none := by
  decide

/-- C8: `Listener.Close` returns `ErrAlreadyClosed` exactly when the
internal `ln` field is non-nil, and proceeds to the close path exactly
when `ln` is nil. -/
theorem claim_C8 (l : ListenerState) :
    (listenerClose l = ListenerCloseResult.errAlreadyClosed ↔ l.ln ≠ none) ∧
    (listenerClose l = ListenerCloseResult.proceedClosePath ↔ l.ln = none) := by
  obtain ⟨ln⟩ := l
  cases ln <;> simp [listenerClose]

/-- C6 counterexample: for a peer on channel `icon` with no registered
overlay, `PeerDispatcher.onPeer` closes the peer through `onError` with
the error message `not exists PeerToPeer[icon]`; the reason
`no p2p for channel` never appears and `Close` records no reason. -/
theorem claim_C6_counterexample :
    (pdOnPeer { p2pMap := [] } "icon").closeErrMsg =
      some "not exists PeerToPeer[icon]" ∧
    (pdOnPeer { p2pMap := [] } "icon").closeErrMsg ≠ some "no p2p for channel" ∧
    (pdOnPeer { p2pMap := [] } "icon").closeReasonsAdded = [] := by
  refine ⟨rfl, by decide, rfl⟩

/-- C6 (amended): when an overlay is registered for the peer's channel,
`PeerDispatcher.onPeer` rewires the peer's packet/error/close callbacks
to that overlay and calls the overlay's `onPeer`; when none is
registered, it invokes `onError` with the error
`not exists PeerToPeer[channel]`, which closes the peer without
recording any close reason. -/
theorem claim_C6 (st : PDState) (ch : String) :
    (∀ ov, st.p2pMap.lookup ch = some ov →
      pdOnPeer st ch =
        { packetCbOwner := some ov, errorCbOwner := some ov
          closeCbOwner := some ov, overlayOnPeer := some ov
          closeErrMsg := none, closeReasonsAdded := [] }) ∧
    (st.p2pMap.lookup ch = none →
      pdOnPeer st ch =
        { packetCbOwner := none, errorCbOwner := none
          closeCbOwner := none, overlayOnPeer := none
          closeErrMsg := some ("not exists PeerToPeer[" ++ ch ++ "]")
          closeReasonsAdded := [] }) := by
  constructor
  · intro ov h
    simp [pdOnPeer, h]
  · intro h
    simp [pdOnPeer, h]

/-- C6 witness: with the overlay for channel `icon` registered,
`onPeer` hands the peer over to it. -/
theorem claim_C6_witness :
    pdOnPeer { p2pMap := [("icon", { channel := "icon" })] } "icon" =
      { packetCbOwner := some { channel := "icon" }
        errorCbOwner := some { channel := "icon" }
        closeCbOwner := some { channel := "icon" }
        overlayOnPeer := some { channel := "icon" }
        closeErrMsg := none, closeReasonsAdded := [] } :=
  (claim_C6 { p2pMap := [("icon", { channel := "icon" })] } "icon").1
    { channel := "icon" } (by decide)

/-- C3: `isDuplicatedToSend` holds exactly when the packet's `src` is
this peer, or — unless `forceSend` is set — when the packet's `sender`
is this peer or the duplicate pool contains the packet's hash; when
`forceSend` is set those two checks are skipped; and a packet reported
duplicated is never enqueued by `Peer.send` (the peer, and so its
queue, is left unchanged and the result is never nil). -/
theorem claim_C3 (p : SendPeer) (pkt : Packet) :
    (isDuplicatedToSend p pkt = true ↔
      (pkt.src = p.id ∨
        (pkt.forceSend = false ∧
          (pkt.sender = some p.id ∨ p.pool.contains pkt.hashOfPacket = true)))) ∧
    (pkt.forceSend = true →
      (isDuplicatedToSend p pkt = true ↔ pkt.src = p.id)) ∧
    (isDuplicatedToSend p pkt = true →
      ∀ c, (peerSend (some p) pkt c).1 ≠ SendResult.ok ∧
        (peerSend (some p) pkt c).2.1 = some p) := by
  have hiff : isDuplicatedToSend p pkt = true ↔
      (pkt.src = p.id ∨
        (pkt.forceSend = false ∧
          (pkt.sender = some p.id ∨ p.pool.contains pkt.hashOfPacket = true))) := by
    simp only [isDuplicatedToSend]
    by_cases h1 : p.id = pkt.src
    · constructor
      · intro _
        exact Or.inl h1.symm
      · intro _
        simp [h1]
    · have h1s : ¬ pkt.src = p.id := fun hx => h1 hx.symm
      cases hf : pkt.forceSend with
      | true => simp [h1, h1s]
      | false =>
        cases hsnd : pkt.sender with
        | none => simp [h1, h1s]
        | some s =>
          by_cases h2 : p.id = s
          · constructor
            · intro _
              exact Or.inr ⟨rfl, Or.inl (by rw [h2])⟩
            · intro _
              simp [h1, h2]
          · have h2s : ¬ (s = p.id) := fun hx => h2 hx.symm
            by_cases h3 : p.pool.contains pkt.hashOfPacket = true
            · simp [h1, h1s, h2, h2s, h3]
            · simp [h1, h1s, h2, h2s, h3]
  refine ⟨hiff, ?_, ?_⟩
  · intro hf
    rw [hiff, hf]
    simp
  · intro hdup c
    cases hc : p.closed with
    | true => simp [peerSend, hc]
    | false => simp [peerSend, hc, hdup]

/-- C3 witness: a non-forced packet whose hash sits in the peer's
duplicate pool is reported duplicated and is not enqueued. -/
theorem claim_C3_witness :
    isDuplicatedToSend
      { id := 5, closed := false, pool := [42], q := { sizePerLevel := 2, levels := [[], []] } }
      { src := 1, sender := none, hashOfPacket := 42, forceSend := false, priority := 1 } = true ∧
    (peerSend
      (some { id := 5, closed := false, pool := [42],
              q := { sizePerLevel := 2, levels := [[], []] } })
      { src := 1, sender := none, hashOfPacket := 42, forceSend := false, priority := 1 }
      { peer := 0, duplicate := 0, overflow := 0, enqueue := 0 }).1 ≠ SendResult.ok := by
  have hdup : isDuplicatedToSend
      { id := 5, closed := false, pool := [42], q := { sizePerLevel := 2, levels := [[], []] } }
      { src := 1, sender := none, hashOfPacket := 42, forceSend := false, priority := 1 } = true := by
    decide
  exact ⟨hdup,
    ((claim_C3 _ _).2.2 hdup
      { peer := 0, duplicate := 0, overflow := 0, enqueue := 0 }).1⟩

/-- C4: `Peer.send`/`sendPacket` returns `ErrNotAvailable` on a nil or
closed peer; otherwise `ErrDuplicatedPacket` without enqueuing when the
packet is duplicated-to-send; otherwise `ErrQueueOverflow` without
enqueuing when the FIFO at the packet's priority level is full;
otherwise the packet is appended to that FIFO and the result is nil. -/
theorem claim_C4 (pr : SendPeer) (pkt : Packet) (c : Counter) :
    (peerSend none pkt c = (SendResult.errNotAvailable, none, c)) ∧
    (pr.closed = true →
      peerSend (some pr) pkt c = (SendResult.errNotAvailable, some pr, c)) ∧
    (pr.closed = false → isDuplicatedToSend pr pkt = true →
      (peerSend (some pr) pkt c).1 = SendResult.errDuplicatedPacket ∧
      (peerSend (some pr) pkt c).2.1 = some pr) ∧
    (pr.closed = false → isDuplicatedToSend pr pkt = false →
      ∀ lvl, pr.q.levels[pkt.priority]? = some lvl →
        (pr.q.sizePerLevel ≤ lvl.length →
          (peerSend (some pr) pkt c).1 = SendResult.errQueueOverflow ∧
          (peerSend (some pr) pkt c).2.1 = some pr) ∧
        (lvl.length < pr.q.sizePerLevel →
          (peerSend (some pr) pkt c).1 = SendResult.ok ∧
          (peerSend (some pr) pkt c).2.1 =
            some { pr with q := { pr.q with
              levels := pr.q.levels.set pkt.priority (lvl ++ [pkt]) } })) := by
  obtain ⟨pid, pcl, ppool, pq⟩ := pr
  refine ⟨rfl, ?_, ?_, ?_⟩
  · intro hc
    subst hc
    simp [peerSend]
  · intro hc hdup
    subst hc
    simp [peerSend, hdup]
  · intro hc hdup lvl hlvl
    subst hc
    constructor
    · intro hfull
      simp [peerSend, hdup, pqPush, hlvl, hfull]
    · intro hlt
      have hlt2 : lvl.length < pq.sizePerLevel := hlt
      have hnot : ¬ pq.sizePerLevel ≤ lvl.length := by omega
      simp [peerSend, hdup, pqPush, hlvl, hnot]

/-- C4 witness: on an open peer with a one-slot-per-level queue, a
fresh packet at the already-full priority level 1 overflows, and the
same packet at the empty priority level 0 is enqueued with result
nil. -/
theorem claim_C4_witness :
    (peerSend
      (some { id := 5, closed := false, pool := [],
              q := { sizePerLevel := 1,
                     levels := [[],
                       [{ src := 9, sender := none, hashOfPacket := 7,
                          forceSend := false, priority := 1 }]] } })
      { src := 9, sender := none, hashOfPacket := 7, forceSend := false, priority := 1 }
      { peer := 0, duplicate := 0, overflow := 0, enqueue := 0 }).1 =
      SendResult.errQueueOverflow ∧
    (peerSend
      (some { id := 5, closed := false, pool := [],
              q := { sizePerLevel := 1,
                     levels := [[],
                       [{ src := 9, sender := none, hashOfPacket := 7,
                          forceSend := false, priority := 1 }]] } })
      { src := 9, sender := none, hashOfPacket := 7, forceSend := false, priority := 0 }
      { peer := 0, duplicate := 0, overflow := 0, enqueue := 0 }).1 =
      SendResult.ok := by
  constructor
  · exact (((claim_C4
      { id := 5, closed := false, pool := [],
        q := { sizePerLevel := 1,
               levels := [[],
                 [{ src := 9, sender := none, hashOfPacket := 7,
                    forceSend := false, priority := 1 }]] } }
      { src := 9, sender := none, hashOfPacket := 7, forceSend := false, priority := 1 }
      { peer := 0, duplicate := 0, overflow := 0, enqueue := 0 }).2.2.2
      rfl (by decide) _ rfl).1 (by decide)).1
  · exact (((claim_C4
      { id := 5, closed := false, pool := [],
        q := { sizePerLevel := 1,
               levels := [[],
                 [{ src := 9, sender := none, hashOfPacket := 7,
                    forceSend := false, priority := 1 }]] } }
      { src := 9, sender := none, hashOfPacket := 7, forceSend := false, priority := 0 }
      { peer := 0, duplicate := 0, overflow := 0, enqueue := 0 }).2.2.2
      rfl (by decide) [] rfl).2 (by decide)).1

/-- Helper: every packet handed to the packet callback by the receive
loop carries `sender = peer id` and its hash is already in the
duplicate pool at the moment of the call. -/
theorem receiveRoutine_packetCb (pid : PeerID) :
    ∀ (reads : List (Except NetError Packet)) (pool : List Hash)
      (pkt : Packet) (pl : List Hash),
      ReceiveEvent.packetCb pkt pl ∈ (receiveRoutine pid pool reads).1 →
      pkt.sender = some pid ∧ pkt.hashOfPacket ∈ pl := by
  intro reads
  induction reads with
  | nil =>
    intro pool pkt pl h
    simp [receiveRoutine] at h
  | cons r rest ih =>
    intro pool pkt pl h
    cases r with
    | error e =>
      cases ht : isTemporaryError e with
      | true =>
        simp [receiveRoutine, ht] at h
        exact ih pool pkt pl h
      | false =>
        simp [receiveRoutine, ht] at h
    | ok pkt0 =>
      simp only [receiveRoutine, List.mem_cons] at h
      rcases h with h | h
      · obtain ⟨h1, h2⟩ := ReceiveEvent.packetCb.inj h
        subst h1
        subst h2
        exact ⟨rfl, List.mem_cons_self _ _⟩
      · exact ih _ pkt pl h

/-- C5: in the receive loop a non-temporary read error closes the peer
via `CloseByError` with that error and exits the loop; a temporary read
error invokes the error callback and the loop continues; and every
packet delivered to the packet callback has `sender` stamped with the
peer's id and its `hashOfPacket` inserted into the duplicate pool
before the callback runs. -/
theorem claim_C5 :
    (∀ (pid : PeerID) (pool : List Hash) (e : NetError)
        (rest : List (Except NetError Packet)),
      isTemporaryError e = false →
        receiveRoutine pid pool (Except.error e :: rest) = ([], some e, pool)) ∧
    (∀ (pid : PeerID) (pool : List Hash) (e : NetError)
        (rest : List (Except NetError Packet)),
      isTemporaryError e = true →
        receiveRoutine pid pool (Except.error e :: rest) =
          (ReceiveEvent.errorCb e :: (receiveRoutine pid pool rest).1,
            (receiveRoutine pid pool rest).2)) ∧
    (∀ (pid : PeerID) (pool : List Hash)
        (reads : List (Except NetError Packet)) (pkt : Packet) (pl : List Hash),
      ReceiveEvent.packetCb pkt pl ∈ (receiveRoutine pid pool reads).1 →
        pkt.sender = some pid ∧ pkt.hashOfPacket ∈ pl) := by
  refine ⟨?_, ?_, ?_⟩
  · intro pid pool e rest h
    simp [receiveRoutine, h]
  · intro pid pool e rest h
    simp [receiveRoutine, h]
  · intro pid pool reads pkt pl h
    exact receiveRoutine_packetCb pid reads pool pkt pl h

/-- C5 witness: an EOF (non-temporary) closes the loop with that error
and no callback; a temporary `net.OpError` is reported and the loop
goes on to deliver the next packet, stamped and pooled. -/
theorem claim_C5_witness :
    receiveRoutine 7 [] [Except.error NetError.eofError] =
      ([], some NetError.eofError, []) ∧
    receiveRoutine 7 [] [Except.error (NetError.opError true),
        Except.ok { src := 1, sender := none, hashOfPacket := 42,
                    forceSend := false, priority := 0 }] =
      ([ReceiveEvent.errorCb (NetError.opError true),
        ReceiveEvent.packetCb
          { src := 1, sender := some 7, hashOfPacket := 42,
            forceSend := false, priority := 0 } [42]],
        none, [42]) ∧
    ({ src := 1, sender := some 7, hashOfPacket := 42,
       forceSend := false, priority := 0 } : Packet).sender = some 7 := by
  refine ⟨claim_C5.1 7 [] NetError.eofError [] rfl, ?_, ?_⟩
  · rw [claim_C5.2.1 7 [] (NetError.opError true) _ rfl]
    rfl
  · exact (claim_C5.2.2 7 []
      [Except.ok { src := 1, sender := none, hashOfPacket := 42,
                   forceSend := false, priority := 0 }]
      { src := 1, sender := some 7, hashOfPacket := 42,
        forceSend := false, priority := 0 } [42]
      (by decide)).1

/-- C7: both sync-client requests send a message whose `reqID` is the
peer's `reqID + 1`; on Unicast failure the error is returned with the
peer's `reqID` and timer untouched; on success `reqID` is stored and a
300 ms timer is armed that injects `receiveTimeExpired` for the
matching reply protocol (`protoResult` for `hasNode`, `protoNodeData`
for `requestNodeData`). -/
theorem claim_C7 (p : SPeer) (ws vh pr nr : Bytes) (hashes : List Bytes)
    (t : Nat) (uni : Option String) :
    ((clientHasNode p ws vh pr nr uni).2.2.reqID = p.reqID + 1) ∧
    ((clientRequestNodeData p hashes t uni).2.2.reqID = p.reqID + 1) ∧
    (∀ e, uni = some e →
      (clientHasNode p ws vh pr nr uni).1 = some e ∧
      (clientHasNode p ws vh pr nr uni).2.1 = p ∧
      (clientRequestNodeData p hashes t uni).1 = some e ∧
      (clientRequestNodeData p hashes t uni).2.1 = p) ∧
    (uni = none →
      (clientHasNode p ws vh pr nr uni).1 = none ∧
      (clientHasNode p ws vh pr nr uni).2.1 =
        { p with reqID := p.reqID + 1
                 timer := some { durationMs := 300, msgType := receiveTimeExpired
                                 pi := SyncProto.protoResult } } ∧
      (clientRequestNodeData p hashes t uni).1 = none ∧
      (clientRequestNodeData p hashes t uni).2.1 =
        { p with reqID := p.reqID + 1
                 timer := some { durationMs := 300, msgType := receiveTimeExpired
                                 pi := SyncProto.protoNodeData } }) := by
  cases uni with
  | none =>
    refine ⟨rfl, rfl, ?_, ?_⟩
    · intro e he
      cases he
    · intro _
      exact ⟨rfl, rfl, rfl, rfl⟩
  | some e0 =>
    refine ⟨rfl, rfl, ?_, ?_⟩
    · intro e he
      cases he
      exact ⟨rfl, rfl, rfl, rfl⟩
    · intro he
      cases he

/-- C7 witness: on peer with `reqID = 4` a successful `hasNode` request
carries `reqID = 5`, stores it and arms the 300 ms `protoResult`
timer. -/
theorem claim_C7_witness :
    (clientHasNode { id := 1, reqID := 4, timer := none } [] [] [] [] none).2.2.reqID
        = 4 + 1 ∧
    (clientHasNode { id := 1, reqID := 4, timer := none } [] [] [] [] none).2.1 =
      { id := 1, reqID := 4 + 1
        timer := some { durationMs := 300, msgType := receiveTimeExpired
                        pi := SyncProto.protoResult } } := by
  have h := claim_C7 { id := 1, reqID := 4, timer := none } [] [] [] [] [] 0 none
  exact ⟨h.1, (h.2.2.2 rfl).2.1⟩

/-- C10: `Manager.OnReceive` always returns `(false, nil)`; a message
whose sender is not in the peer pool triggers no downstream call; and
for `protoResult`/`protoNodeData` the syncer is invoked exactly when
the sender is pooled and `syncing` is set. -/
theorem claim_C10 (m : MState) (pi : SyncProto) (b : Bytes) (id : PeerID) :
    ((managerOnReceive m pi b id).1 = (false, none)) ∧
    (id ∉ m.pool → (managerOnReceive m pi b id).2 = none) ∧
    ((pi = SyncProto.protoResult ∨ pi = SyncProto.protoNodeData) →
      ((managerOnReceive m pi b id).2 = some (MEffect.syncerOnReceive pi b id) ↔
        (id ∈ m.pool ∧ m.syncing = true))) := by
  refine ⟨?_, ?_, ?_⟩
  · by_cases hp : id ∈ m.pool
    · cases pi <;> cases hsy : m.syncing <;>
        simp [managerOnReceive, hp, hsy]
    · simp [managerOnReceive, hp]
  · intro hp
    simp [managerOnReceive, hp]
  · intro hpi
    by_cases hp : id ∈ m.pool
    · rcases hpi with h | h <;> subst h <;>
        cases hsy : m.syncing <;> simp [managerOnReceive, hp, hsy]
    · rcases hpi with h | h <;> subst h <;>
        simp [managerOnReceive, hp]

/-- C10 witness: a `protoResult` message from pooled peer 3 while
syncing returns `(false, nil)` and goes to the syncer. -/
theorem claim_C10_witness :
    (managerOnReceive { pool := [3], syncing := true }
        SyncProto.protoResult [] 3).1 = (false, none) ∧
    (managerOnReceive { pool := [3], syncing := true }
        SyncProto.protoResult [] 3).2 =
      some (MEffect.syncerOnReceive SyncProto.protoResult [] 3) := by
  have h := claim_C10 { pool := [3], syncing := true } SyncProto.protoResult [] 3
  exact ⟨h.1, (h.2.2 (Or.inl rfl)).2 ⟨by decide, rfl⟩⟩

/-- C9: `NetAddress.Validate` returns nil exactly when the string
splits into a host and a port whose text parses (as a 64-bit decimal
integer) to a value in `[1, 65535]`; every other string — unsplittable,
non-numeric port, or port out of range — yields a non-nil error. -/
theorem claim_C9 (na : List Char) :
    netAddressValidate na = none ↔
      ∃ host port, splitHostPort na = Except.ok (host, port) ∧
        ∃ i : Int, parseInt10 port = Except.ok i ∧ 1 ≤ i ∧ i ≤ 65535 := by
  unfold netAddressValidate
  cases hs : splitHostPort na with
  | error e =>
    simp
  | ok hp =>
    obtain ⟨h0, p0⟩ := hp
    cases hp2 : parseInt10 p0 with
    | error e =>
      simp [hp2]
    | ok i =>
      by_cases hi : i < 1 ∨ 65535 < i
      · simp only [hp2]
        rw [if_pos hi]
        constructor
        · intro hh
          exact absurd hh (by simp)
        · rintro ⟨h2, p2, heq, j, hj, hj1, hj2⟩
          have heq2 : p0 = p2 := congrArg Prod.snd (Except.ok.inj heq)
          rw [← heq2, hp2] at hj
          have hij : i = j := Except.ok.inj hj
          omega
      · rw [not_or] at hi
        obtain ⟨hi1, hi2⟩ := hi
        simp only [hp2]
        rw [if_neg (by omega : ¬ (i < 1 ∨ 65535 < i))]
        constructor
        · intro _
          exact ⟨h0, p0, rfl, i, hp2, by omega, by omega⟩
        · intro _
          rfl

end Goloop
